import Mathlib

/-!
Verification of the Web3Games multi-asset ledger core: the fungible token
pallet (`pallets/token/fungible/src/lib.rs`) and the non-fungible token
precompile dispatcher (`precompiles/src/token_non_fungible.rs`).

Bytes are modelled as `Nat` values below 256, 20-byte EVM addresses as
`List Nat` of length 20, and the ledger's `Balance` (`primitives::Balance`,
a `u128`) as `Nat` with explicit checked/saturating arithmetic at `2 ^ 128`.

The file is organised as: all definitions first, then all theorems.
-/

namespace Web3Games

/-! # Definitions -/

/-! ## Big-endian byte codec

`beBytes n x` is `x.to_be_bytes()` truncated/padded to `n` bytes
(the source uses `u128::to_be_bytes`, 16 bytes, and `u32::from_be_bytes`,
4 bytes). `fromBe` is the big-endian decoder. -/

def beBytes : Nat → Nat → List Nat
  | 0, _ => []
  | n + 1, x => x / 256 ^ n % 256 :: beBytes n x

def fromBe (l : List Nat) : Nat :=
  l.foldl (fun acc b => acc * 256 + b) 0

/-! ## Address codec (`TokenIdConversion` for the non-fungible precompile)

`into_address` and `try_from_address` follow
`precompiles/src/token_non_fungible.rs` lines 61-81: the encoder writes the
4-byte reserved tag followed by the token id as 16 big-endian bytes
(`u128::to_be_bytes`); the decoder checks bytes `0..4` against the tag and
reads bytes `16..20` with `u32::from_be_bytes`. -/

/-- Modelled from the spec: the crate-level constant
NFT_PRECOMPILE_ADDRESS_PREFIX (defined outside the provided sources) is a
fixed reserved 4-byte tag; only its fixedness and length matter to the
claims, so an arbitrary concrete 4-byte value is used. -/
def nftAddressTag : List Nat := [255, 255, 255, 255]

def into_address (id : Nat) : List Nat :=
  nftAddressTag ++ beBytes 16 id

def try_from_address (address : List Nat) : Option Nat :=
  if address.take 4 = nftAddressTag then
    some (fromBe ((address.drop 16).take 4))
  else
    none

/-! ## Fungible token ledger (`pallets/token/fungible/src/lib.rs`)

`Balance` is `primitives::Balance = u128`; checked arithmetic fails (and
saturating arithmetic clamps) at `2 ^ 128`. The `FungibleTokenId` type is a
runtime instantiation (`AtLeast32BitUnsigned`); its allocator uses
`checked_add`, modelled at the 32-bit width of the minimal instantiation. -/

def U128_LIMIT : Nat := 2 ^ 128

def ID_LIMIT : Nat := 2 ^ 32

/-- `u128::checked_add`. -/
def checked_add (a b : Nat) : Option Nat :=
  if a + b < U128_LIMIT then some (a + b) else none

/-- `u128::checked_sub`. -/
def checked_sub (a b : Nat) : Option Nat :=
  if b ≤ a then some (a - b) else none

/-- `u128::saturating_add` (clamps at `u128::MAX = 2 ^ 128 - 1`). -/
def saturating_add (a b : Nat) : Nat :=
  min (a + b) (U128_LIMIT - 1)

/-- `u128::saturating_sub` (`Nat` subtraction is already truncated at 0). -/
def saturating_sub (a b : Nat) : Nat :=
  a - b

/-- The `Token` record stored in the `Tokens` map. `name` and `symbol` are
the stored `BoundedVec<u8, StringLimit>` contents. -/
structure Token where
  owner : Nat
  name : List Nat
  symbol : List Nat
  decimals : Nat
  total_supply : Nat
deriving DecidableEq

/-- The pallet's storage: `Tokens`, `NextTokenId`, `Balances` (double map,
`ValueQuery` zero default), `Allowances` (double map keyed by
`(owner, operator)` pairs, zero default). Account ids are modelled as `Nat`. -/
structure FungibleState where
  tokens : Nat → Option Token
  nextTokenId : Nat
  balances : Nat → Nat → Nat
  allowances : Nat → Nat × Nat → Nat

/-- The pallet's `Error<T>` enum, plus `CurrencyError` standing for a
`DispatchError` surfaced by the external `Currency::reserve` collaborator. -/
inductive Err
  | Unknown
  | NoAvailableTokenId
  | NumOverflow
  | NoPermission
  | NotOwner
  | InvalidId
  | AmountExceedAllowance
  | BadMetadata
  | CurrencyError
deriving DecidableEq

def setToken (s : FungibleState) (id : Nat) (t : Token) : FungibleState :=
  { s with tokens := fun i => if i = id then some t else s.tokens i }

def setBalance (s : FungibleState) (id acct v : Nat) : FungibleState :=
  { s with balances := fun i a => if i = id ∧ a = acct then v else s.balances i a }

def setAllowance (s : FungibleState) (id owner spender v : Nat) : FungibleState :=
  { s with allowances := fun i p => if i = id ∧ p = (owner, spender) then v else s.allowances i p }

/-- Source lines 234-236. -/
def exists_token (s : FungibleState) (id : Nat) : Bool :=
  (s.tokens id).isSome

/-- Source lines 238-241. -/
def total_supply (s : FungibleState) (id : Nat) : Except Err Nat :=
  match s.tokens id with
  | none => Except.error Err.InvalidId
  | some token => Except.ok token.total_supply

/-- Source lines 348-359 (`increase_balance`): `Balances::try_mutate` with
`checked_add`, failing `NumOverflow`. -/
def increase_balance (s : FungibleState) (id recipient amount : Nat) : Except Err FungibleState :=
  match checked_add (s.balances id recipient) amount with
  | some v => Except.ok (setBalance s id recipient v)
  | none => Except.error Err.NumOverflow

/-- Source lines 361-372 (`decrease_balance`): `Balances::try_mutate` with
`checked_sub`, failing `NumOverflow`. -/
def decrease_balance (s : FungibleState) (id sender amount : Nat) : Except Err FungibleState :=
  match checked_sub (s.balances id sender) amount with
  | some v => Except.ok (setBalance s id sender v)
  | none => Except.error Err.NumOverflow

/-- Source lines 374-379 (`maybe_check_permission`): reads the token
(`InvalidId` when absent) and requires the caller to be its owner
(`NoPermission` otherwise). -/
def maybe_check_permission (s : FungibleState) (id who : Nat) : Except Err Unit :=
  match s.tokens id with
  | none => Except.error Err.InvalidId
  | some token => if who = token.owner then Except.ok () else Except.error Err.NoPermission

/-- Source lines 278-295 (`do_transfer`): decrease the sender's balance,
then increase the recipient's. -/
def do_transfer (s : FungibleState) (id sender recipient amount : Nat) :
    Except Err FungibleState := do
  let s1 ← decrease_balance s id sender amount
  increase_balance s1 id recipient amount

/-- Source lines 297-320 (`do_mint`): `Tokens::try_mutate` reads the token
(`Unknown` when absent), increases the account's balance with checked
arithmetic, then updates `total_supply` with `saturating_add`. -/
def do_mint (s : FungibleState) (id account amount : Nat) : Except Err FungibleState :=
  match s.tokens id with
  | none => Except.error Err.Unknown
  | some token => do
      let s1 ← increase_balance s id account amount
      Except.ok (setToken s1 id { token with total_supply := saturating_add token.total_supply amount })

/-- Source lines 322-346 (`do_burn`): `Tokens::try_mutate` reads the token
(`Unknown` when absent), decreases the account's balance with checked
arithmetic, then updates `total_supply` with `saturating_sub`. -/
def do_burn (s : FungibleState) (id account amount : Nat) : Except Err FungibleState :=
  match s.tokens id with
  | none => Except.error Err.Unknown
  | some token => do
      let s1 ← decrease_balance s id account amount
      Except.ok (setToken s1 id { token with total_supply := saturating_sub token.total_supply amount })

/-- Source lines 243-276 (`do_create_token`). The `Currency::reserve`
deposit is an external collaborator (out of scope per the spec); its verdict
is passed in as `reserveOk`. The metadata bound is the runtime constant
`StringLimit`, passed in as `stringLimit`. -/
def do_create_token (stringLimit : Nat) (reserveOk : Bool) (s : FungibleState)
    (who : Nat) (name symbol : List Nat) (decimals : Nat) :
    Except Err (Nat × FungibleState) :=
  if reserveOk = false then Except.error Err.CurrencyError
  else if stringLimit < name.length then Except.error Err.BadMetadata
  else if stringLimit < symbol.length then Except.error Err.BadMetadata
  else if s.nextTokenId + 1 < ID_LIMIT then
    let id := s.nextTokenId
    let s1 : FungibleState := { s with nextTokenId := s.nextTokenId + 1 }
    let token : Token :=
      { owner := who, name := name, symbol := symbol, decimals := decimals, total_supply := 0 }
    Except.ok (id, setToken s1 id token)
  else Except.error Err.NoAvailableTokenId

/-- Dispatchable `approve` (source lines 140-164): `Allowances::try_mutate`
on key `(who, spender)` with `checked_add`, failing `NumOverflow`. -/
def approve (s : FungibleState) (id who spender amount : Nat) : Except Err FungibleState :=
  match checked_add (s.allowances id (who, spender)) amount with
  | some v => Except.ok (setAllowance s id who spender v)
  | none => Except.error Err.NumOverflow

/-- Dispatchable `transfer` (source lines 166-178): `do_transfer` from the
signed caller. -/
def transfer (s : FungibleState) (id who recipient amount : Nat) : Except Err FungibleState :=
  do_transfer s id who recipient amount

/-- Dispatchable `transfer_from` (source lines 180-200):
`Allowances::try_mutate` on key `(sender, who)` with `checked_sub` (failing
`NumOverflow`), then `do_transfer` from `sender` to `recipient`. -/
def transfer_from (s : FungibleState) (id who sender recipient amount : Nat) :
    Except Err FungibleState :=
  match checked_sub (s.allowances id (sender, who)) amount with
  | some v => do_transfer (setAllowance s id sender who v) id sender recipient amount
  | none => Except.error Err.NumOverflow

/-- Dispatchable `mint` (source lines 202-216): `maybe_check_permission`
for the signed caller, then `do_mint`. -/
def mint (s : FungibleState) (id who account amount : Nat) : Except Err FungibleState :=
  match maybe_check_permission s id who with
  | Except.ok _ => do_mint s id account amount
  | Except.error e => Except.error e

/-- Dispatchable `burn` (source lines 218-229): `do_burn` from the signed
caller's own balance. -/
def burn (s : FungibleState) (id who amount : Nat) : Except Err FungibleState :=
  do_burn s id who amount

/-- Modelled from the spec: the storage collaborator applies each call's
writes as a single atomic unit — an extrinsic that reports an error commits
nothing (spec sections 3 and 5, commit-or-abort). `dispatch` is that
boundary: the post-state of a failed call is the pre-state. -/
def dispatch (f : FungibleState → Except Err FungibleState) (s : FungibleState) : FungibleState :=
  match f s with
  | Except.ok s' => s'
  | Except.error _ => s

/-- The commit-or-abort boundary for `do_create_token` (which also returns
the allocated id on success). -/
def dispatch_create (stringLimit : Nat) (reserveOk : Bool) (s : FungibleState)
    (who : Nat) (name symbol : List Nat) (decimals : Nat) : FungibleState :=
  match do_create_token stringLimit reserveOk s who name symbol decimals with
  | Except.ok (_, s') => s'
  | Except.error _ => s

/-- The empty ledger: no tokens, no balances, no allowances. -/
def emptyState : FungibleState :=
  { tokens := fun _ => none
    nextTokenId := 0
    balances := fun _ _ => 0
    allowances := fun _ _ => 0 }

/-- A sample token record (owner 5, name "GLD", symbol "GLD", 8 decimals,
supply 10), used for concrete evaluations. -/
def goldToken : Token :=
  { owner := 5, name := [71, 76, 68], symbol := [71, 76, 68], decimals := 8, total_supply := 10 }

/-- A ledger holding `goldToken` at id 0, with account 1 holding balance 10. -/
def oneTokenState : FungibleState :=
  { tokens := fun i => if i = 0 then some goldToken else none
    nextTokenId := 1
    balances := fun i a => if i = 0 ∧ a = 1 then 10 else 0
    allowances := fun _ _ => 0 }

/-- A token at the saturation boundary: total_supply is `u128::MAX`. -/
def maxSupplyToken : Token :=
  { owner := 7, name := [], symbol := [], decimals := 0, total_supply := U128_LIMIT - 1 }

/-- A ledger holding `maxSupplyToken` at id 0 (all balances zero). -/
def maxSupplyState : FungibleState :=
  { tokens := fun i => if i = 0 then some maxSupplyToken else none
    nextTokenId := 1
    balances := fun _ _ => 0
    allowances := fun _ _ => 0 }

/-- A ledger with a token at id 0 where account 1 holds 1 and account 2
holds `u128::MAX` (reachable, e.g. minting `u128::MAX` to account 2). -/
def fullHolderState : FungibleState :=
  { tokens := fun i => if i = 0 then some goldToken else none
    nextTokenId := 1
    balances := fun i a =>
      if i = 0 ∧ a = 1 then 1 else if i = 0 ∧ a = 2 then U128_LIMIT - 1 else 0
    allowances := fun _ _ => 0 }

/-! ## Non-fungible precompile dispatcher
(`precompiles/src/token_non_fungible.rs`, `PrecompileSet::execute`)

The call payload is a raw byte list. The selector table is the `Action`
enum of the source; the 4-byte selector values are the Keccak-derived
selectors of the canonical signatures. -/

/-- The `Action` selector enum (source lines 37-51). -/
inductive Action
  | BalanceOf
  | OwnerOf
  | TransferFrom
  | Mint
  | Burn
  | Name
  | Symbol
  | TokenURI
  | TotalSupply
  | TokenOfOwnerByIndex
  | TokenByIndex
deriving DecidableEq

/-- Modelled from the spec: `generate_function_selector` (a macro outside
the provided sources) computes the 4-byte Keccak selector of each canonical
signature; the standard ERC-721 selector values are used. -/
def selectorOf : Action → List Nat
  | Action.BalanceOf => [0x70, 0xa0, 0x82, 0x31]
  | Action.OwnerOf => [0x63, 0x52, 0x21, 0x1e]
  | Action.TransferFrom => [0x23, 0xb8, 0x72, 0xdd]
  | Action.Mint => [0x40, 0xc1, 0x0f, 0x19]
  | Action.Burn => [0x42, 0x96, 0x6c, 0x68]
  | Action.Name => [0x06, 0xfd, 0xde, 0x03]
  | Action.Symbol => [0x95, 0xd8, 0x9b, 0x41]
  | Action.TokenURI => [0xc8, 0x7b, 0x56, 0xdd]
  | Action.TotalSupply => [0x18, 0x16, 0x0d, 0xdd]
  | Action.TokenOfOwnerByIndex => [0x2f, 0x74, 0x5c, 0x59]
  | Action.TokenByIndex => [0x4f, 0x6c, 0xcc, 0xe7]

/-- Modelled from the spec: the crate-level CREATE_SELECTOR constant (the
fixed "create" selector, outside the provided sources); only its fixedness
and 4-byte length matter to the claims. -/
def createSelector : List Nat := [0x1d, 0x4d, 0x69, 0x1d]

/-- Modelled from the spec: `precompile_utils::EvmDataReader::read_selector`
— fails gracefully when the payload is shorter than 4 bytes, otherwise
matches the leading 4 bytes against the selector table and fails on an
unknown selector. -/
def read_selector (input : List Nat) : Except String Action :=
  if input.length < 4 then Except.error "tried to parse selector out of bounds"
  else if input.take 4 = selectorOf Action.BalanceOf then Except.ok Action.BalanceOf
  else if input.take 4 = selectorOf Action.OwnerOf then Except.ok Action.OwnerOf
  else if input.take 4 = selectorOf Action.TransferFrom then Except.ok Action.TransferFrom
  else if input.take 4 = selectorOf Action.Mint then Except.ok Action.Mint
  else if input.take 4 = selectorOf Action.Burn then Except.ok Action.Burn
  else if input.take 4 = selectorOf Action.Name then Except.ok Action.Name
  else if input.take 4 = selectorOf Action.Symbol then Except.ok Action.Symbol
  else if input.take 4 = selectorOf Action.TokenURI then Except.ok Action.TokenURI
  else if input.take 4 = selectorOf Action.TotalSupply then Except.ok Action.TotalSupply
  else if input.take 4 = selectorOf Action.TokenOfOwnerByIndex then Except.ok Action.TokenOfOwnerByIndex
  else if input.take 4 = selectorOf Action.TokenByIndex then Except.ok Action.TokenByIndex
  else Except.error "unknown selector"

/-- The `FunctionModifier` classes of `precompile_utils`. -/
inductive FunctionModifier
  | View
  | NonPayable
  | Payable
deriving DecidableEq

/-- The mutability class each selector is checked against
(source lines 106-117). -/
def modifierOf : Action → FunctionModifier
  | Action.TransferFrom => FunctionModifier.NonPayable
  | Action.Mint => FunctionModifier.NonPayable
  | Action.Burn => FunctionModifier.NonPayable
  | _ => FunctionModifier.View

/-- Modelled from the spec: `precompile_utils::check_function_modifier` —
a call carrying value requires `Payable`, and a static call context
requires `View`. -/
def modifierOk (m : FunctionModifier) (isStatic : Bool) (value : Nat) : Bool :=
  (decide (value = 0) || decide (m = FunctionModifier.Payable)) &&
    (!isStatic || decide (m = FunctionModifier.View))

/-- Outcome of `PrecompileSet::execute`. `notMine` is the Rust `None`;
`errorReturned` is `Some (Err ...)`; `routed a` records that the
existing-token branch passed the selector and mutability gates and invoked
handler `a`; `createCalled` records that the create handler was invoked;
`sliceAbort` records that the Rust code aborts with an out-of-bounds slice
index (a panic, not a returned error). -/
inductive ExecOutcome
  | notMine
  | createCalled
  | routed (a : Action)
  | errorReturned (msg : String)
  | sliceAbort
deriving DecidableEq

/-- `PrecompileSet::execute` (source lines 94-146). `nftExists` is
`pallet_token_non_fungible::Pallet::exists`; `isStatic` and `value` are the
call context consulted by `check_function_modifier`. In the branch for a
token id with no record, the source compares `&input[0..4]` with the create
selector: Rust slice indexing aborts when `input` is shorter than 4 bytes. -/
def execute (nftExists : Nat → Bool) (isStatic : Bool) (value : Nat)
    (address input : List Nat) : ExecOutcome :=
  match try_from_address address with
  | none => ExecOutcome.notMine
  | some id =>
      if nftExists id then
        match read_selector input with
        | Except.error msg => ExecOutcome.errorReturned msg
        | Except.ok a =>
            if modifierOk (modifierOf a) isStatic value then ExecOutcome.routed a
            else ExecOutcome.errorReturned "function modifier mismatch"
      else
        if input.length < 4 then ExecOutcome.sliceAbort
        else if input.take 4 = createSelector then ExecOutcome.createCalled
        else ExecOutcome.notMine

/-- Outcome of the `owner_of` query handler. `succeedOwner` carries the
ledger owner account (its mapping to an EVM address via `into_evm_address`
is an external collaborator); `unwrapAbort` records that
`Option::unwrap` aborts on `None` (a panic, not a returned error). -/
inductive QueryOutcome
  | succeedOwner (acct : Nat)
  | errorReturned (msg : String)
  | unwrapAbort
deriving DecidableEq

/-- The `owner_of` handler (source lines 216-231): skip the 4-byte
selector, require one 32-byte argument word, read it as a `TokenId`
(`u128`, failing when the word exceeds `u128::MAX`), then call the
pallet's `owner_of` — whose `Option` result the source unwraps
unconditionally. `owners` is modelled from the spec: the non-fungible
pallet's per-collection owner map (`owner_of(id, token_id)`), a lookup
returning `none` when the token has no recorded owner. -/
def owner_of (owners : Nat → Nat → Option Nat) (id : Nat) (input : List Nat) : QueryOutcome :=
  if input.length < 4 then QueryOutcome.errorReturned "tried to parse selector out of bounds"
  else if (input.drop 4).length < 32 then
    QueryOutcome.errorReturned "input does not contain enough arguments"
  else if U128_LIMIT ≤ fromBe ((input.drop 4).take 32) then
    QueryOutcome.errorReturned "value too large for u128"
  else
    match owners id (fromBe ((input.drop 4).take 32)) with
    | some acct => QueryOutcome.succeedOwner acct
    | none => QueryOutcome.unwrapAbort

/-! # Theorems -/

/-! ## Byte codec lemmas -/

theorem beBytes_length (n x : Nat) : (beBytes n x).length = n := by
  induction n with
  | zero => rfl
  | succ n ih => simp [beBytes, ih]

theorem beBytes_drop (m n x : Nat) : (beBytes (m + n) x).drop m = beBytes n x := by
  induction m with
  | zero => simp
  | succ m ih =>
      have h : m + 1 + n = (m + n) + 1 := by omega
      rw [h]
      simpa [beBytes] using ih

theorem foldl_beBytes (n x acc : Nat) :
    (beBytes n x).foldl (fun a b => a * 256 + b) acc = acc * 256 ^ n + x % 256 ^ n := by
  induction n generalizing acc with
  | zero => simp [beBytes, Nat.mod_one]
  | succ n ih =>
      rw [beBytes]
      simp only [List.foldl_cons]
      rw [ih]
      have h256 : (256 : Nat) ^ (n + 1) = 256 ^ n * 256 := by ring
      rw [h256, Nat.mod_mul]
      ring

theorem fromBe_beBytes (n x : Nat) : fromBe (beBytes n x) = x % 256 ^ n := by
  simpa [fromBe] using foldl_beBytes n x 0

theorem fromBe_beBytes_of_lt (n x : Nat) (h : x < 256 ^ n) : fromBe (beBytes n x) = x := by
  rw [fromBe_beBytes, Nat.mod_eq_of_lt h]

/-! ## Address codec lemmas -/

theorem into_address_drop4 (id : Nat) : (into_address id).drop 4 = beBytes 16 id := by
  simp [into_address, nftAddressTag]

theorem try_from_address_into_address (id : Nat) :
    try_from_address (into_address id) = some (id % 2 ^ 32) := by
  have htag : (into_address id).take 4 = nftAddressTag := by
    simp [into_address, nftAddressTag, List.take]
  have hdrop : (into_address id).drop 16 = beBytes 4 id := by
    have h1 : (into_address id).drop 16 = ((into_address id).drop 4).drop 12 := by
      rw [List.drop_drop]
    rw [h1, into_address_drop4]
    have h2 : (16 : Nat) = 12 + 4 := by norm_num
    calc (beBytes 16 id).drop 12 = (beBytes (12 + 4) id).drop 12 := by rw [h2]
      _ = beBytes 4 id := beBytes_drop 12 4 id
  have htake : (beBytes 4 id).take 4 = beBytes 4 id := by
    rw [List.take_of_length_le]
    rw [beBytes_length]
  have h32 : (256 : Nat) ^ 4 = 2 ^ 32 := by norm_num
  rw [try_from_address, if_pos htag, hdrop, htake, fromBe_beBytes, h32]

theorem into_address_injective (id1 id2 : Nat) (h1 : id1 < U128_LIMIT) (h2 : id2 < U128_LIMIT)
    (heq : into_address id1 = into_address id2) : id1 = id2 := by
  have hb : beBytes 16 id1 = beBytes 16 id2 := by
    rw [← into_address_drop4 id1, ← into_address_drop4 id2, heq]
  have h256 : (2 : Nat) ^ 128 = 256 ^ 16 := by norm_num
  have e1 : fromBe (beBytes 16 id1) = id1 :=
    fromBe_beBytes_of_lt 16 id1 (by rw [← h256]; exact h1)
  have e2 : fromBe (beBytes 16 id2) = id2 :=
    fromBe_beBytes_of_lt 16 id2 (by rw [← h256]; exact h2)
  rw [← e1, ← e2, hb]

/-! ## C1: address codec round-trip -/

/-- C1 (counterexample): the claim "for every token id,
`address_to_token_id(token_id_to_address(id))` returns that same id" fails
at `id = 2 ^ 32`: the decoder reads only address bytes `16..20`
(`u32::from_be_bytes`), so the round trip yields `0`, not `2 ^ 32`. -/
theorem c1_counterexample :
    try_from_address (into_address (2 ^ 32)) = some 0 ∧ (0 : Nat) ≠ 2 ^ 32 := by
  constructor
  · rw [try_from_address_into_address]
    norm_num
  · decide

/-- C1 (amended): the round trip
`address_to_token_id(token_id_to_address(id)) = id` holds for every token
id below `2 ^ 32` (the decoder reads only the low 4 id bytes), and encoding
two distinct token ids (within the `u128` id space) never produces the same
20-byte address — the encoder writes all 16 id bytes, so it is injective. -/
theorem c1_roundtrip_and_injective (id : Nat) (hid : id < 2 ^ 32) :
    try_from_address (into_address id) = some id
    ∧ ∀ id1 id2, id1 < U128_LIMIT → id2 < U128_LIMIT →
        into_address id1 = into_address id2 → id1 = id2 := by
  constructor
  · rw [try_from_address_into_address, Nat.mod_eq_of_lt hid]
  · exact into_address_injective

/-- C1 witness: the amended theorem at `id = 7`. -/
theorem c1_roundtrip_and_injective_witness :
    try_from_address (into_address 7) = some 7 :=
  (c1_roundtrip_and_injective 7 (by decide)).1

/-! ## C2: dispatcher on a prefixed address with no token record -/

/-- C2 (code bug): at an address carrying the reserved tag whose id has no
token record, `execute` evaluates `&input[0..4]` before any length check,
so a payload shorter than 4 bytes makes the dispatcher abort with an
out-of-bounds slice index instead of declining the call or invoking
create. Here: the address encoding id 1, an empty payload. -/
theorem c2_short_payload_aborts :
    execute (fun _ => false) false 0 (into_address 1) [] = ExecOutcome.sliceAbort := by
  rfl

/-! ## C9: the ownerOf handler unwraps a missing owner -/

/-- C9: for every call whose payload is the ownerOf selector followed by a
well-formed 32-byte argument word naming `token_id`, if the collection
records no owner for `token_id` then the handler hits `Option::unwrap` on
`None` and aborts, rather than returning an error result. -/
theorem owner_of_unwrap_aborts (owners : Nat → Nat → Option Nat) (id token_id : Nat)
    (hlt : token_id < U128_LIMIT)
    (hnone : owners id token_id = none) :
    owner_of owners id (selectorOf Action.OwnerOf ++ beBytes 32 token_id) =
      QueryOutcome.unwrapAbort := by
  have hlen4 : (selectorOf Action.OwnerOf).length = 4 := by simp [selectorOf]
  have hdrop : (selectorOf Action.OwnerOf ++ beBytes 32 token_id).drop 4 = beBytes 32 token_id := by
    rw [← hlen4, List.drop_left]
  have hlen : (selectorOf Action.OwnerOf ++ beBytes 32 token_id).length = 36 := by
    simp [selectorOf, beBytes_length]
  have hword : fromBe ((beBytes 32 token_id).take 32) = token_id := by
    have htake : (beBytes 32 token_id).take 32 = beBytes 32 token_id := by
      rw [List.take_of_length_le]
      rw [beBytes_length]
    rw [htake]
    exact fromBe_beBytes_of_lt 32 token_id
      (lt_of_lt_of_le hlt (by norm_num [U128_LIMIT]))
  rw [owner_of, hlen, hdrop, hword]
  rw [if_neg (by norm_num), if_neg (by rw [beBytes_length]; norm_num),
    if_neg (Nat.not_le.mpr hlt), hnone]

/-- C9 witness: the theorem at a collection with no recorded owners,
collection id 0, token id 5. -/
theorem owner_of_unwrap_aborts_witness :
    owner_of (fun _ _ => none) 0 (selectorOf Action.OwnerOf ++ beBytes 32 5) =
      QueryOutcome.unwrapAbort :=
  owner_of_unwrap_aborts (fun _ _ => none) 0 5 (by decide) rfl

/-! ## Ledger lemmas -/

theorem bind_ok {α β : Type} (a : α) (f : α → Except Err β) :
    (Except.ok a : Except Err α) >>= f = f a := rfl

theorem setBalance_apply (s : FungibleState) (id acct v i a : Nat) :
    (setBalance s id acct v).balances i a =
      if i = id ∧ a = acct then v else s.balances i a := rfl

theorem setAllowance_apply (s : FungibleState) (id owner spender v i : Nat) (p : Nat × Nat) :
    (setAllowance s id owner spender v).allowances i p =
      if i = id ∧ p = (owner, spender) then v else s.allowances i p := rfl

theorem setToken_apply (s : FungibleState) (id : Nat) (t : Token) (i : Nat) :
    (setToken s id t).tokens i = if i = id then some t else s.tokens i := rfl

theorem increase_balance_eq (s : FungibleState) (id recipient amount : Nat) :
    increase_balance s id recipient amount =
      if s.balances id recipient + amount < U128_LIMIT
      then Except.ok (setBalance s id recipient (s.balances id recipient + amount))
      else Except.error Err.NumOverflow := by
  by_cases h : s.balances id recipient + amount < U128_LIMIT <;>
    simp [increase_balance, checked_add, h]

theorem decrease_balance_eq (s : FungibleState) (id sender amount : Nat) :
    decrease_balance s id sender amount =
      if amount ≤ s.balances id sender
      then Except.ok (setBalance s id sender (s.balances id sender - amount))
      else Except.error Err.NumOverflow := by
  by_cases h : amount ≤ s.balances id sender <;>
    simp [decrease_balance, checked_sub, h]

theorem approve_eq (s : FungibleState) (id who spender amount : Nat) :
    approve s id who spender amount =
      if s.allowances id (who, spender) + amount < U128_LIMIT
      then Except.ok (setAllowance s id who spender (s.allowances id (who, spender) + amount))
      else Except.error Err.NumOverflow := by
  by_cases h : s.allowances id (who, spender) + amount < U128_LIMIT <;>
    simp [approve, checked_add, h]

/-- A successful `transfer` and its effect on every balance entry. -/
theorem transfer_ok_balances (s : FungibleState) (id A B amt : Nat)
    (hle : amt ≤ s.balances id A)
    (hlt : (if B = A then s.balances id A - amt else s.balances id B) + amt < U128_LIMIT) :
    ∃ s', transfer s id A B amt = Except.ok s'
      ∧ (∀ i a, s'.balances i a =
          if i = id ∧ a = B then
            (if B = A then s.balances id A - amt else s.balances id B) + amt
          else if i = id ∧ a = A then s.balances id A - amt
          else s.balances i a)
      ∧ s'.tokens = s.tokens ∧ s'.allowances = s.allowances ∧ s'.nextTokenId = s.nextTokenId := by
  have hdec : decrease_balance s id A amt =
      Except.ok (setBalance s id A (s.balances id A - amt)) := by
    rw [decrease_balance_eq, if_pos hle]
  have hmid : (setBalance s id A (s.balances id A - amt)).balances id B =
      if B = A then s.balances id A - amt else s.balances id B := by
    rw [setBalance_apply]
    simp
  have hinc : increase_balance (setBalance s id A (s.balances id A - amt)) id B amt =
      Except.ok (setBalance (setBalance s id A (s.balances id A - amt)) id B
        ((if B = A then s.balances id A - amt else s.balances id B) + amt)) := by
    rw [increase_balance_eq, hmid, if_pos hlt]
  refine ⟨setBalance (setBalance s id A (s.balances id A - amt)) id B
    ((if B = A then s.balances id A - amt else s.balances id B) + amt), ?_, ?_, rfl, rfl, rfl⟩
  · rw [transfer, do_transfer, hdec, bind_ok, hinc]
  · intro i a
    rw [setBalance_apply, setBalance_apply]

/-! ## C3: transfer_from aborts atomically on failure -/

/-- C3: whenever `transfer_from(id, caller, sender, recipient, amount)`
fails — be it the allowance decrement (`checked_sub` underflow) or the
subsequent balance transfer — the commit-or-abort boundary leaves every
allowance entry and every balance entry exactly as before the call. -/
theorem transfer_from_atomic (s : FungibleState) (id caller sender recipient amount : Nat)
    (e : Err) (h : transfer_from s id caller sender recipient amount = Except.error e) :
    (∀ owner spender,
      (dispatch (fun t => transfer_from t id caller sender recipient amount) s).allowances
          id (owner, spender)
        = s.allowances id (owner, spender))
    ∧ ∀ i a,
        (dispatch (fun t => transfer_from t id caller sender recipient amount) s).balances i a
          = s.balances i a := by
  have hd : dispatch (fun t => transfer_from t id caller sender recipient amount) s = s := by
    simp only [dispatch]
    rw [h]
  rw [hd]
  exact ⟨fun _ _ => rfl, fun _ _ => rfl⟩

/-- C3 witness: a call whose allowance (zero on the empty ledger) is below
the requested amount 4. -/
theorem transfer_from_atomic_witness :
    (∀ owner spender,
      (dispatch (fun t => transfer_from t 0 1 2 3 4) emptyState).allowances 0 (owner, spender)
        = emptyState.allowances 0 (owner, spender))
    ∧ ∀ i a,
        (dispatch (fun t => transfer_from t 0 1 2 3 4) emptyState).balances i a
          = emptyState.balances i a :=
  transfer_from_atomic emptyState 0 1 2 3 4 Err.NumOverflow rfl

/-! ## C4: mint/burn on a nonexistent token id -/

/-- C4 (counterexample): on the empty ledger, token id 0 has no Token
record, yet the mint dispatchable does not fail with `Unknown`: its
permission check reads the token first and fails with `InvalidId`. -/
theorem c4_counterexample :
    mint emptyState 0 1 2 3 = Except.error Err.InvalidId
    ∧ mint emptyState 0 1 2 3 ≠ Except.error Err.Unknown := by
  constructor
  · rfl
  · intro h
    have h2 : (Except.error Err.InvalidId : Except Err FungibleState) =
        Except.error Err.Unknown := h
    exact absurd (Except.error.inj h2) (by decide)

/-- C4 (amended): for every token id with no Token record, the mint
dispatchable fails with `InvalidId` (the permission check runs first and
reports `InvalidId`, not `Unknown`), the burn dispatchable fails with
`Unknown`, and under the commit-or-abort boundary both leave the state
unchanged. -/
theorem c4_amended (s : FungibleState) (id who account amount : Nat)
    (h : s.tokens id = none) :
    mint s id who account amount = Except.error Err.InvalidId
    ∧ burn s id account amount = Except.error Err.Unknown
    ∧ dispatch (fun t => mint t id who account amount) s = s
    ∧ dispatch (fun t => burn t id account amount) s = s := by
  have hm : mint s id who account amount = Except.error Err.InvalidId := by
    simp [mint, maybe_check_permission, h]
  have hb : burn s id account amount = Except.error Err.Unknown := by
    simp [burn, do_burn, h]
  refine ⟨hm, hb, ?_, ?_⟩
  · simp only [dispatch]
    rw [hm]
  · simp only [dispatch]
    rw [hb]

/-- C4 witness: the amended theorem on the empty ledger at id 3. -/
theorem c4_amended_witness :
    mint emptyState 3 1 2 5 = Except.error Err.InvalidId
    ∧ burn emptyState 3 2 5 = Except.error Err.Unknown
    ∧ dispatch (fun t => mint t 3 1 2 5) emptyState = emptyState
    ∧ dispatch (fun t => burn t 3 2 5) emptyState = emptyState :=
  c4_amended emptyState 3 1 2 5 rfl

/-! ## C5: approve is additive -/

/-- C5: `approve` increments the (owner, spender) allowance by the given
amount; two successive successful approves of `amt1` then `amt2` leave the
allowance at its base value plus `amt1 + amt2` (additive, not set-to); and
`approve` fails with `NumOverflow` exactly when the checked `u128`
addition overflows. -/
theorem approve_additive (s s1 s2 : FungibleState) (id who spender amt1 amt2 : Nat)
    (h1 : approve s id who spender amt1 = Except.ok s1)
    (h2 : approve s1 id who spender amt2 = Except.ok s2) :
    s1.allowances id (who, spender) = s.allowances id (who, spender) + amt1
    ∧ s2.allowances id (who, spender) = s.allowances id (who, spender) + amt1 + amt2
    ∧ ∀ t : FungibleState, ∀ i a b amt,
        approve t i a b amt = Except.error Err.NumOverflow ↔
          U128_LIMIT ≤ t.allowances i (a, b) + amt := by
  rw [approve_eq] at h1
  by_cases hc1 : s.allowances id (who, spender) + amt1 < U128_LIMIT
  · rw [if_pos hc1] at h1
    have hs1 : s1 = setAllowance s id who spender (s.allowances id (who, spender) + amt1) :=
      (Except.ok.inj h1).symm
    have ha1 : s1.allowances id (who, spender) = s.allowances id (who, spender) + amt1 := by
      rw [hs1, setAllowance_apply, if_pos ⟨rfl, rfl⟩]
    rw [approve_eq] at h2
    by_cases hc2 : s1.allowances id (who, spender) + amt2 < U128_LIMIT
    · rw [if_pos hc2] at h2
      have hs2 : s2 = setAllowance s1 id who spender (s1.allowances id (who, spender) + amt2) :=
        (Except.ok.inj h2).symm
      have ha2 : s2.allowances id (who, spender) = s1.allowances id (who, spender) + amt2 := by
        rw [hs2, setAllowance_apply, if_pos ⟨rfl, rfl⟩]
      refine ⟨ha1, by rw [ha2, ha1], ?_⟩
      intro t i a b amt
      rw [approve_eq]
      by_cases hc : t.allowances i (a, b) + amt < U128_LIMIT
      · rw [if_pos hc]
        constructor
        · intro hcontra
          exact Except.noConfusion hcontra
        · intro hge
          exact absurd hge (Nat.not_le.mpr hc)
      · rw [if_neg hc]
        exact ⟨fun _ => Nat.not_lt.mp hc, fun _ => rfl⟩
    · rw [if_neg hc2] at h2
      exact Except.noConfusion h2
  · rw [if_neg hc1] at h1
    exact Except.noConfusion h1

/-- C5 witness: approving 3 then 4 on the empty ledger yields allowance
`0 + 3 + 4`. -/
theorem approve_additive_witness :
    ∃ s1 s2, approve emptyState 0 1 2 3 = Except.ok s1
      ∧ approve s1 0 1 2 4 = Except.ok s2
      ∧ s2.allowances 0 (1, 2) = emptyState.allowances 0 (1, 2) + 3 + 4 := by
  refine ⟨_, _, rfl, rfl, ?_⟩
  exact (approve_additive emptyState _ _ 0 1 2 3 4 rfl rfl).2.1

/-! ## C6: mint then burn restores supply and balance -/

/-- C6 (counterexample): with an existing token whose total_supply is
`u128::MAX` (and account 9 holding 0), `mint(0, 9, 1)` by the owner
succeeds — the balance uses checked addition but the supply uses
`saturating_add`, which clamps at the max — and `burn(0, 9, 1)` succeeds,
leaving total_supply at `u128::MAX - 2`... the run evaluates to
`u128::MAX - 1` minus 1, which differs from the pre-mint supply
`u128::MAX`. -/
theorem c6_counterexample :
    (maxSupplyState.tokens 0).map Token.total_supply = some (U128_LIMIT - 1)
    ∧ ((mint maxSupplyState 0 7 9 1).bind (fun s1 => burn s1 0 9 1)).map
        (fun s2 => (s2.tokens 0).map Token.total_supply)
      = Except.ok (some (U128_LIMIT - 2))
    ∧ U128_LIMIT - 2 ≠ U128_LIMIT - 1 :=
  ⟨rfl, rfl, by decide⟩

/-- C6 (amended): for every existing token id, account A and amount amt, a
successful `mint(id, A, amt)` by the owner followed by a successful
`burn(id, A, amt)` restores total_supply and A's balance to their pre-mint
values, provided the supply addition does not saturate
(`total_supply + amt < 2 ^ 128`). -/
theorem c6_amended (s : FungibleState) (id A amt : Nat) (tok : Token)
    (htok : s.tokens id = some tok)
    (hbal : s.balances id A + amt < U128_LIMIT)
    (hts : tok.total_supply + amt < U128_LIMIT) :
    ∃ s1 s2, mint s id tok.owner A amt = Except.ok s1
      ∧ burn s1 id A amt = Except.ok s2
      ∧ (s2.tokens id).map Token.total_supply = some tok.total_supply
      ∧ s2.balances id A = s.balances id A := by
  have hsat : saturating_add tok.total_supply amt = tok.total_supply + amt := by
    rw [saturating_add]
    exact min_eq_left (Nat.le_sub_one_of_lt hts)
  have hinc : increase_balance s id A amt =
      Except.ok (setBalance s id A (s.balances id A + amt)) := by
    rw [increase_balance_eq, if_pos hbal]
  have hmint : mint s id tok.owner A amt =
      Except.ok (setToken (setBalance s id A (s.balances id A + amt)) id
        { tok with total_supply := tok.total_supply + amt }) := by
    simp [mint, maybe_check_permission, htok, do_mint, hinc, bind_ok, hsat]
  have hs1bal : (setToken (setBalance s id A (s.balances id A + amt)) id
      { tok with total_supply := tok.total_supply + amt }).balances id A =
      s.balances id A + amt := by
    show (setBalance s id A (s.balances id A + amt)).balances id A = _
    rw [setBalance_apply, if_pos ⟨rfl, rfl⟩]
  have hdec : decrease_balance (setToken (setBalance s id A (s.balances id A + amt)) id
      { tok with total_supply := tok.total_supply + amt }) id A amt =
      Except.ok (setBalance (setToken (setBalance s id A (s.balances id A + amt)) id
        { tok with total_supply := tok.total_supply + amt }) id A
        (s.balances id A + amt - amt)) := by
    rw [decrease_balance_eq, hs1bal, if_pos (Nat.le_add_left amt (s.balances id A))]
  have hburn : burn (setToken (setBalance s id A (s.balances id A + amt)) id
      { tok with total_supply := tok.total_supply + amt }) id A amt =
      Except.ok (setToken (setBalance (setToken (setBalance s id A (s.balances id A + amt)) id
        { tok with total_supply := tok.total_supply + amt }) id A
        (s.balances id A + amt - amt)) id
        { tok with total_supply := tok.total_supply + amt - amt }) := by
    simp [burn, do_burn, setToken_apply, hdec, bind_ok, saturating_sub]
  refine ⟨_, _, hmint, hburn, ?_, ?_⟩
  · rw [setToken_apply, if_pos rfl]
    simp [Nat.add_sub_cancel]
  · show (setBalance (setToken (setBalance s id A (s.balances id A + amt)) id
      { tok with total_supply := tok.total_supply + amt }) id A
      (s.balances id A + amt - amt)).balances id A = s.balances id A
    rw [setBalance_apply, if_pos ⟨rfl, rfl⟩, Nat.add_sub_cancel]

/-- C6 witness: the amended theorem on `oneTokenState` (supply 10 far from
the boundary), minting then burning 4 on account 2. -/
theorem c6_amended_witness :
    ∃ s1 s2, mint oneTokenState 0 goldToken.owner 2 4 = Except.ok s1
      ∧ burn s1 0 2 4 = Except.ok s2
      ∧ (s2.tokens 0).map Token.total_supply = some goldToken.total_supply
      ∧ s2.balances 0 2 = oneTokenState.balances 0 2 :=
  c6_amended oneTokenState 0 2 4 goldToken rfl (by decide) (by decide)

/-! ## C7: transfer round trip restores balances -/

/-- C7 (counterexample): in `fullHolderState` token 0 exists, account 1
holds 1 and account 2 holds `u128::MAX`, and `amt = 1` is at most account
1's balance. `transfer(0, 1, 2, 1)` fails — account 2's balance would
overflow — so under commit-or-abort it changes nothing, and the follow-up
`transfer(0, 2, 1, 1)` then moves 1 the other way: account 1 ends with
balance 2, not its original balance 1. -/
theorem c7_counterexample :
    (1 : Nat) ≤ fullHolderState.balances 0 1
    ∧ (dispatch (fun t => transfer t 0 2 1 1)
        (dispatch (fun t => transfer t 0 1 2 1) fullHolderState)).balances 0 1 = 2
    ∧ (2 : Nat) ≠ fullHolderState.balances 0 1 :=
  ⟨by decide, rfl, by decide⟩

/-- C7 (amended): for every existing token id, accounts A and B, and
`amt ≤ A's balance`, `transfer(id, A, B, amt)` followed by
`transfer(id, B, A, amt)` restores both balances, provided B's balance
plus amt stays within `u128` (so the first transfer succeeds). -/
theorem c7_amended (s : FungibleState) (id A B amt : Nat)
    (_htok : (s.tokens id).isSome = true)
    (hle : amt ≤ s.balances id A)
    (hwfA : s.balances id A < U128_LIMIT)
    (hB : s.balances id B + amt < U128_LIMIT) :
    ∃ s1 s2, transfer s id A B amt = Except.ok s1
      ∧ transfer s1 id B A amt = Except.ok s2
      ∧ s2.balances id A = s.balances id A
      ∧ s2.balances id B = s.balances id B := by
  by_cases hab : B = A
  · subst hab
    have hlt1 : (if B = B then s.balances id B - amt else s.balances id B) + amt
        < U128_LIMIT := by
      rw [if_pos rfl, Nat.sub_add_cancel hle]
      exact hwfA
    obtain ⟨s1, ht1, hbal1, _, _, _⟩ := transfer_ok_balances s id B B amt hle hlt1
    have hA1 : s1.balances id B = s.balances id B := by
      rw [hbal1, if_pos ⟨rfl, rfl⟩, if_pos rfl, Nat.sub_add_cancel hle]
    have hle2 : amt ≤ s1.balances id B := by
      rw [hA1]
      exact hle
    have hlt2 : (if B = B then s1.balances id B - amt else s1.balances id B) + amt
        < U128_LIMIT := by
      rw [if_pos rfl, Nat.sub_add_cancel hle2, hA1]
      exact hwfA
    obtain ⟨s2, ht2, hbal2, _, _, _⟩ := transfer_ok_balances s1 id B B amt hle2 hlt2
    have hA2 : s2.balances id B = s1.balances id B := by
      rw [hbal2, if_pos ⟨rfl, rfl⟩, if_pos rfl, Nat.sub_add_cancel hle2]
    refine ⟨s1, s2, ht1, ht2, ?_, ?_⟩ <;> rw [hA2, hA1]
  · have hlt1 : (if B = A then s.balances id A - amt else s.balances id B) + amt
        < U128_LIMIT := by
      rw [if_neg hab]
      exact hB
    obtain ⟨s1, ht1, hbal1, _, _, _⟩ := transfer_ok_balances s id A B amt hle hlt1
    have hB1 : s1.balances id B = s.balances id B + amt := by
      rw [hbal1, if_pos ⟨rfl, rfl⟩, if_neg hab]
    have hA1 : s1.balances id A = s.balances id A - amt := by
      rw [hbal1, if_neg (fun hc => hab hc.2.symm), if_pos ⟨rfl, rfl⟩]
    have hle2 : amt ≤ s1.balances id B := by
      rw [hB1]
      exact Nat.le_add_left amt (s.balances id B)
    have hlt2 : (if A = B then s1.balances id B - amt else s1.balances id A) + amt
        < U128_LIMIT := by
      rw [if_neg (fun h => hab h.symm), hA1, Nat.sub_add_cancel hle]
      exact hwfA
    obtain ⟨s2, ht2, hbal2, _, _, _⟩ := transfer_ok_balances s1 id B A amt hle2 hlt2
    refine ⟨s1, s2, ht1, ht2, ?_, ?_⟩
    · rw [hbal2, if_pos ⟨rfl, rfl⟩, if_neg (fun h => hab h.symm), hA1,
        Nat.sub_add_cancel hle]
    · rw [hbal2, if_neg (fun hc => hab hc.2), if_pos ⟨rfl, rfl⟩, hB1, Nat.add_sub_cancel]

/-- C7 witness: the amended theorem on `oneTokenState`, sending 4 from
account 1 to account 2 and back. -/
theorem c7_amended_witness :
    ∃ s1 s2, transfer oneTokenState 0 1 2 4 = Except.ok s1
      ∧ transfer s1 0 2 1 4 = Except.ok s2
      ∧ s2.balances 0 1 = oneTokenState.balances 0 1
      ∧ s2.balances 0 2 = oneTokenState.balances 0 2 :=
  c7_amended oneTokenState 0 1 2 4 rfl (by decide) (by decide) (by decide)

/-! ## C8: create with over-long metadata -/

/-- C8: when the name or the symbol exceeds the bounded length
(`StringLimit`), `do_create_token` fails with `BadMetadata`, and the
commit-or-abort boundary leaves the ledger unchanged — in particular no
Token record is stored and NextTokenId is not incremented. (The external
currency-reservation collaborator, out of scope per the spec, is taken to
succeed: `reserveOk = true`.) -/
theorem create_token_badmetadata (stringLimit : Nat) (s : FungibleState) (who : Nat)
    (name symbol : List Nat) (decimals : Nat)
    (hmeta : stringLimit < name.length ∨ stringLimit < symbol.length) :
    do_create_token stringLimit true s who name symbol decimals = Except.error Err.BadMetadata
    ∧ dispatch_create stringLimit true s who name symbol decimals = s := by
  have h : do_create_token stringLimit true s who name symbol decimals =
      Except.error Err.BadMetadata := by
    rw [do_create_token, if_neg (by simp)]
    rcases hmeta with h1 | h1
    · rw [if_pos h1]
    · by_cases h2 : stringLimit < name.length
      · rw [if_pos h2]
      · rw [if_neg h2, if_pos h1]
  refine ⟨h, ?_⟩
  simp only [dispatch_create]
  rw [h]

/-- C8 witness: creating with a 2-byte name against a string limit of 1
fails with `BadMetadata` and leaves the empty ledger unchanged. -/
theorem create_token_badmetadata_witness :
    do_create_token 1 true emptyState 5 [0, 0] [0] 0 = Except.error Err.BadMetadata
    ∧ dispatch_create 1 true emptyState 5 [0, 0] [0] 0 = emptyState :=
  create_token_badmetadata 1 emptyState 5 [0, 0] [0] 0 (Or.inl (by decide))

/-! ## C10: self-transfer is an identity -/

/-- C10: for every existing token id, account A and `amt ≤ A's balance`
(whose entry is a stored `u128`, hence below `2 ^ 128`),
`transfer(id, A, A, amt)` succeeds and leaves every balance entry — and
the allowance, token and counter storage — unchanged. -/
theorem self_transfer_identity (s : FungibleState) (id A amt : Nat)
    (_htok : (s.tokens id).isSome = true)
    (hwf : s.balances id A < U128_LIMIT)
    (hle : amt ≤ s.balances id A) :
    ∃ s', transfer s id A A amt = Except.ok s'
      ∧ (∀ i a, s'.balances i a = s.balances i a)
      ∧ s'.allowances = s.allowances
      ∧ s'.tokens = s.tokens
      ∧ s'.nextTokenId = s.nextTokenId := by
  have hlt : (if A = A then s.balances id A - amt else s.balances id A) + amt
      < U128_LIMIT := by
    rw [if_pos rfl, Nat.sub_add_cancel hle]
    exact hwf
  obtain ⟨s', ht, hbal, htk, hal, hnx⟩ := transfer_ok_balances s id A A amt hle hlt
  refine ⟨s', ht, ?_, hal, htk, hnx⟩
  intro i a
  rw [hbal i a]
  by_cases h : i = id ∧ a = A
  · rw [if_pos h, if_pos rfl, Nat.sub_add_cancel hle, h.1, h.2]
  · rw [if_neg h, if_neg h]

/-- C10 witness: a self-transfer of 3 by account 1 on `oneTokenState`. -/
theorem self_transfer_identity_witness :
    ∃ s', transfer oneTokenState 0 1 1 3 = Except.ok s'
      ∧ (∀ i a, s'.balances i a = oneTokenState.balances i a)
      ∧ s'.allowances = oneTokenState.allowances
      ∧ s'.tokens = oneTokenState.tokens
      ∧ s'.nextTokenId = oneTokenState.nextTokenId :=
  self_transfer_identity oneTokenState 0 1 3 rfl (by decide) (by decide)

end Web3Games
